import Mathlib

/-!
Verification development for the roma_aeterna heightmap / province-map
generator (tools/heightmap/generate_heightmap.py).

The Python program is shallowly embedded: float arithmetic is modelled by
exact rationals (and by reals where the source uses transcendental
functions), numpy grids by total functions over integer pixel indices,
and in-place grid mutation by explicit functional update.  Each
definition is a direct transcription of the corresponding Python
function; the constants keep the source names.
-/

namespace RomaAeterna

/-- Pixel grid: a 2-D array modelled as a total function from
(row, column) indices to cell values.  The source arrays are
HEIGHT x WIDTH; out-of-range indices are never written by the
embedded operations (proved below for the rasterizer). -/
def Grid (a : Type) : Type := Int → Int → a

/-- WIDTH constant of the source (2048 pixels). -/
def WIDTH : Int := 2048

/-- HEIGHT constant of the source (2048 pixels). -/
def HEIGHT : Int := 2048

/-- LON_MIN constant (-10 degrees). -/
def LON_MIN : Rat := -10

/-- LON_MAX constant (50 degrees). -/
def LON_MAX : Rat := 50

/-- LAT_MIN constant (25 degrees). -/
def LAT_MIN : Rat := 25

/-- LAT_MAX constant (55 degrees). -/
def LAT_MAX : Rat := 55

/-- LON_RANGE = LON_MAX - LON_MIN = 60. -/
def LON_RANGE : Rat := LON_MAX - LON_MIN

/-- LAT_RANGE = LAT_MAX - LAT_MIN = 30. -/
def LAT_RANGE : Rat := LAT_MAX - LAT_MIN

/-- WATER_LEVEL constant: the sea-level elevation code 32. -/
def WATER_LEVEL : Int := 32

/-- COAST_HEIGHT constant (34). -/
def COAST_HEIGHT : Rat := 34

/-- Python int() applied to a real-valued expression: truncation toward
zero, i.e. floor for nonnegative arguments and ceiling for negative
ones. -/
def pyInt (q : Rat) : Int := if 0 ≤ q then ⌊q⌋ else ⌈q⌉

/-- Python min() of a list (callers guarantee nonemptiness; min() of an
empty list raises in Python and the default is never used here). -/
def pyMin (l : List Int) : Int :=
  match l with
  | [] => 0
  | h :: t => t.foldl min h

/-- Python max() of a list (same convention as pyMin). -/
def pyMax (l : List Int) : Int :=
  match l with
  | [] => 0
  | h :: t => t.foldl max h

/-- np.clip for rationals: clamp q into the interval lo..hi. -/
def clipQ (q lo hi : Rat) : Rat := max lo (min q hi)

/-- lon_to_x: convert longitude to pixel x coordinate,
int(((lon - LON_MIN) / LON_RANGE) * WIDTH). -/
def lon_to_x (lon : Rat) : Int := pyInt ((lon - LON_MIN) / LON_RANGE * (WIDTH : Rat))

/-- lat_to_y: convert latitude to pixel y coordinate (north is row 0),
int(((LAT_MAX - lat) / LAT_RANGE) * HEIGHT). -/
def lat_to_y (lat : Rat) : Int := pyInt ((LAT_MAX - lat) / LAT_RANGE * (HEIGHT : Rat))

/-- lonlat_to_xy: combined conversion to (x, y). -/
def lonlat_to_xy (lon lat : Rat) : Int × Int := (lon_to_x lon, lat_to_y lat)

/-- x_to_lon: convert pixel x back to longitude,
LON_MIN + (x / WIDTH) * LON_RANGE. -/
def x_to_lon (x : Int) : Rat := LON_MIN + ((x : Rat) / (WIDTH : Rat)) * LON_RANGE

/-- y_to_lat: convert pixel y back to latitude,
LAT_MAX - (y / HEIGHT) * LAT_RANGE. -/
def y_to_lat (y : Int) : Rat := LAT_MAX - ((y : Rat) / (HEIGHT : Rat)) * LAT_RANGE

/-! ## Polygon rasterization (rasterize_polygon) -/

/-- One scanline of the rasterizer: the x-intersections of the horizontal
line at row y with the polygon edges, using the half-open test
(yi <= y < yj) or (yj <= y < yi) and linear interpolation.  The edge
list pairs each vertex with its predecessor (the first vertex is paired
with the last), exactly as the Python index loop does. -/
def scan_intersections (pp : List (Int × Int)) (y : Int) : List Rat :=
  (pp.zip (pp.getLastD (0, 0) :: pp)).filterMap (fun e =>
    if ((e.1.2 ≤ y ∧ y < e.2.2) ∨ (e.2.2 ≤ y ∧ y < e.1.2)) ∧ e.2.2 ≠ e.1.2 then
      some ((e.1.1 : Rat) + ((y : Rat) - (e.1.2 : Rat)) *
        ((e.2.1 : Rat) - (e.1.1 : Rat)) / ((e.2.2 : Rat) - (e.1.2 : Rat)))
    else none)

/-- Pair up consecutive elements of the sorted intersection list
(the Python loop for k in range(0, len-1, 2)); a trailing unpaired
element is dropped. -/
def pairUp : List Rat → List (Rat × Rat)
  | x :: y :: rest => (x, y) :: pairUp rest
  | _ => []

/-- The even-odd fill spans of one row: intersections sorted ascending
then taken pairwise. -/
def row_spans (pp : List (Int × Int)) (y : Int) : List (Rat × Rat) :=
  pairUp (List.insertionSort (fun p q => p ≤ q) (scan_intersections pp y))

/-- rasterize_polygon: scanline fill of a (lon, lat) polygon onto a grid.
The bounding box is clamped to the raster extent and each span is
filled from max(x_min, ceil(left)) to min(x_max, floor(right))
inclusive.  An empty polygon is returned unchanged (the early return of
the source). -/
def rasterize_polygon (mask : Grid Int) (polygon : List (Rat × Rat)) (value : Int) : Grid Int :=
  if polygon = [] then mask
  else
    let pp := polygon.map (fun q => lonlat_to_xy q.1 q.2)
    let xMin := max 0 (pyMin (pp.map Prod.fst))
    let xMax := min (WIDTH - 1) (pyMax (pp.map Prod.fst))
    let yMin := max 0 (pyMin (pp.map Prod.snd))
    let yMax := min (HEIGHT - 1) (pyMax (pp.map Prod.snd))
    fun r c =>
      if yMin ≤ r ∧ r ≤ yMax ∧
          (row_spans pp r).any (fun s =>
            decide (max xMin ⌈s.1⌉ ≤ c ∧ c ≤ min xMax ⌊s.2⌋)) then
        value
      else mask r c

/-- The all-zero grid (np.zeros). -/
def zeroGrid : Grid Int := fun _ _ => 0

/-! ## Coastal blend and final quantization (generate_heightmap, steps 5-6) -/

/-- The combined elevation field of generate_heightmap before smoothing:
land heights ramped from COAST_HEIGHT toward the base+ridge height over
coastal_width = 6 pixels, ocean heights ramped from WATER_LEVEL toward the
basin depth, each zeroed outside its own mask, then summed. -/
def coastal_combine (mask : Grid Int) (heightmap landDist oceanDist oceanDepth : Grid Rat) :
    Grid Rat := fun y x =>
  let landFactor := clipQ (landDist y x / 6) 0 1
  let landHeight := heightmap y x * landFactor + COAST_HEIGHT * (1 - landFactor)
  let landH := if mask y x = 1 then landHeight else 0
  let oceanFactor := clipQ (oceanDist y x / 6) 0 1
  let oceanHeight := (WATER_LEVEL : Rat) * (1 - oceanFactor) + oceanDepth y x * oceanFactor
  let oceanH := if mask y x = 0 then oceanHeight else 0
  landH + oceanH

/-- One pass of _manual_smooth: unweighted 3x3 box filter with numpy
edge padding, i.e. neighbour indices clamped to the grid. -/
def clampIdx (n i : Int) : Int := max 0 (min (n - 1) i)

/-- One box-filter pass over an h x w grid (np.pad mode edge, then the
nine shifted copies summed and divided by 9). -/
def manual_smooth_pass (h w : Int) (g : Grid Rat) : Grid Rat := fun y x =>
  (g (clampIdx h (y - 1)) (clampIdx w (x - 1)) + g (clampIdx h (y - 1)) (clampIdx w x) +
      g (clampIdx h (y - 1)) (clampIdx w (x + 1)) +
    g (clampIdx h y) (clampIdx w (x - 1)) + g (clampIdx h y) (clampIdx w x) +
      g (clampIdx h y) (clampIdx w (x + 1)) +
    g (clampIdx h (y + 1)) (clampIdx w (x - 1)) + g (clampIdx h (y + 1)) (clampIdx w x) +
      g (clampIdx h (y + 1)) (clampIdx w (x + 1))) / 9

/-- The smoothing fallback _manual_smooth with its default passes = 2. -/
def manual_smooth (h w : Int) (g : Grid Rat) : Grid Rat :=
  manual_smooth_pass h w (manual_smooth_pass h w g)

/-- The land/sea invariant enforcement of generate_heightmap after
smoothing: np.where(land_mask == 1, np.maximum(final, WATER_LEVEL + 1),
np.minimum(final, WATER_LEVEL)). -/
def enforce_water_line (mask : Grid Int) (g : Grid Rat) : Grid Rat := fun y x =>
  if mask y x = 1 then max (g y x) ((WATER_LEVEL : Rat) + 1) else min (g y x) (WATER_LEVEL : Rat)

/-- The terminal transformation of generate_heightmap: enforce the
invariant, clip to 0..127 and truncate to an 8-bit integer
(np.clip(final, 0, 127).astype(np.uint8)). -/
def finalize_elevation (mask : Grid Int) (g : Grid Rat) : Grid Int := fun y x =>
  pyInt (clipQ (enforce_water_line mask g y x) 0 127)

/-- The coastal-blend stage of generate_heightmap, from the combined
field to the quantized output, with the smoothing function as a
parameter (scipy gaussian_filter when available, manual_smooth
otherwise).  The invariant enforcement happens once, after smoothing. -/
def coastal_stage (smooth : Grid Rat → Grid Rat) (mask : Grid Int)
    (heightmap landDist oceanDist oceanDepth : Grid Rat) : Grid Int :=
  finalize_elevation mask (smooth (coastal_combine mask heightmap landDist oceanDist oceanDepth))

/-- Modelled from the spec: the coastal-blend stage as section 4.5 of the
spec describes it, with the land/sea invariant additionally enforced on
the combined field BEFORE smoothing (the code has no such step); used
only to compare against coastal_stage. -/
def coastal_stage_spec (smooth : Grid Rat → Grid Rat) (mask : Grid Int)
    (heightmap landDist oceanDist oceanDepth : Grid Rat) : Grid Int :=
  finalize_elevation mask
    (smooth (enforce_water_line mask
      (coastal_combine mask heightmap landDist oceanDist oceanDepth)))

/-! ## Ocean depth basins (create_ocean_depth) -/

/-- An entry of OCEAN_BASINS: (center_lon, center_lat, radius_deg,
depth_value). -/
structure Basin where
  lon : Rat
  lat : Rat
  radius : Rat
  depthVal : Rat

/-- The OCEAN_BASINS list of the source, in declared order. -/
def OCEAN_BASINS : List Basin :=
  [⟨5.0, 38.0, 5.0, 8⟩, ⟨20.0, 35.0, 6.0, 5⟩, ⟨17.0, 36.0, 3.0, 4⟩,
   ⟨12.0, 39.5, 2.5, 10⟩, ⟨15.0, 43.0, 2.0, 18⟩, ⟨25.0, 38.0, 2.5, 12⟩,
   ⟨34.0, 43.0, 4.0, 14⟩, ⟨-5.0, 42.0, 8.0, 3⟩, ⟨-5.0, 46.0, 3.0, 6⟩,
   ⟨3.0, 54.0, 4.0, 20⟩, ⟨-1.0, 50.0, 2.0, 22⟩, ⟨38.0, 25.0, 3.0, 10⟩]

/-- r_pixels = int(radius / LON_RANGE * WIDTH). -/
def rPixels (b : Basin) : Int := pyInt (b.radius / LON_RANGE * (WIDTH : Rat))

/-- The basin center pixel (cx, cy) = lonlat_to_xy(center_lon, center_lat). -/
def basinCx (b : Basin) : Int := lon_to_x b.lon

/-- The basin center row. -/
def basinCy (b : Basin) : Int := lat_to_y b.lat

/-- Membership of pixel (row y, column x) in the basin's update window:
rows max(0, cy - 2r) to min(HEIGHT, cy + 2r) exclusive, columns
likewise (the np.mgrid slice of the source). -/
def inBasinWindow (b : Basin) (y x : Int) : Prop :=
  max 0 (basinCy b - rPixels b * 2) ≤ y ∧ y < min HEIGHT (basinCy b + rPixels b * 2) ∧
  max 0 (basinCx b - rPixels b * 2) ≤ x ∧ x < min WIDTH (basinCx b + rPixels b * 2)

instance (b : Basin) (y x : Int) : Decidable (inBasinWindow b y x) := by
  unfold inBasinWindow; infer_instance

/-- The normalized radial distance of the source:
sqrt(((x - cx) / r)^2 + ((y - cy) / r)^2), as a real number. -/
noncomputable def basinDist (b : Basin) (y x : Int) : Real :=
  Real.sqrt ((((x : Real) - (basinCx b : Real)) / (rPixels b : Real)) ^ 2 +
    (((y : Real) - (basinCy b : Real)) / (rPixels b : Real)) ^ 2)

/-- influence = np.exp(-dist^2 * 0.5). -/
noncomputable def basinInfluence (b : Basin) (y x : Int) : Real :=
  Real.exp (-(basinDist b y x) ^ 2 * (1 / 2))

/-- One basin's in-place update of the running depth value of one cell:
inside the window, cells with influence > 0.01 are blended toward the
basin's target depth; other cells keep their value. -/
noncomputable def basinStep (y x : Int) (d : Real) (b : Basin) : Real :=
  if inBasinWindow b y x then
    (if basinInfluence b y x > 0.01 then
      d * (1 - basinInfluence b y x) + (b.depthVal : Real) * basinInfluence b y x
    else d)
  else d

/-- create_ocean_depth: start every cell at the uniform base depth 15.0,
fold the basins in declared order, then zero every land cell
(np.where(land_mask == 0, depth, 0)). -/
noncomputable def create_ocean_depth (basins : List Basin) (landMask : Grid Int) : Grid Real :=
  fun y x => if landMask y x = 0 then basins.foldl (basinStep y x) 15 else 0

/-- The per-cell basin blend as the spec states it, without the
influence > 0.01 guard: every cell of the window is blended.  Used to
show the guard never bites inside the window. -/
noncomputable def basinBlendSpec (y x : Int) (d : Real) (b : Basin) : Real :=
  if inBasinWindow b y x then
    d * (1 - basinInfluence b y x) + (b.depthVal : Real) * basinInfluence b y x
  else d

/-! ## Mountain ridges (add_mountain_ridge_fast) -/

/-- A ridge: polyline control points with peak height and width in
degrees (one entry of the MOUNTAINS table). -/
structure Ridge where
  points : List (Rat × Rat)
  peakHeight : Rat
  widthDeg : Rat

/-- The ridge polyline in pixel coordinates. -/
def ridgePts (r : Ridge) : List (Int × Int) :=
  r.points.map (fun p => lonlat_to_xy p.1 p.2)

/-- pad = int(width_deg / LON_RANGE * WIDTH * 3.5). -/
def ridgePad (r : Ridge) : Int := pyInt (r.widthDeg / LON_RANGE * (WIDTH : Rat) * (7 / 2))

/-- sigma_avg = (sigma_x + sigma_y) / 2 with sigma_x = width/LON_RANGE*WIDTH
and sigma_y = width/LAT_RANGE*HEIGHT. -/
def sigmaAvg (r : Ridge) : Rat :=
  (r.widthDeg / LON_RANGE * (WIDTH : Rat) + r.widthDeg / LAT_RANGE * (HEIGHT : Rat)) / 2

/-- The padded, clamped bounding window of the ridge (the slice the
source adds its contribution to).  An empty polyline raises in the
source (min of an empty sequence); it is modelled as an empty window. -/
def inRidgeWindow (r : Ridge) (y x : Int) : Prop :=
  r.points ≠ [] ∧
  max 0 (pyMin ((ridgePts r).map Prod.snd) - ridgePad r) ≤ y ∧
  y ≤ min (HEIGHT - 1) (pyMax ((ridgePts r).map Prod.snd) + ridgePad r) ∧
  max 0 (pyMin ((ridgePts r).map Prod.fst) - ridgePad r) ≤ x ∧
  x ≤ min (WIDTH - 1) (pyMax ((ridgePts r).map Prod.fst) + ridgePad r)

instance (r : Ridge) (y x : Int) : Decidable (inRidgeWindow r y x) := by
  unfold inRidgeWindow; infer_instance

/-- Squared distance from pixel (x, y) to one segment of the polyline:
the standard clamped point-to-segment projection of the source, in
exact rational arithmetic. -/
def segDistSq (y x : Int) (s : (Int × Int) × (Int × Int)) : Rat :=
  let ax : Rat := (s.1.1 : Rat)
  let ay : Rat := (s.1.2 : Rat)
  let bx : Rat := (s.2.1 : Rat)
  let by2 : Rat := (s.2.2 : Rat)
  let dx := bx - ax
  let dy := by2 - ay
  let lengthSq := dx * dx + dy * dy
  if lengthSq = 0 then ((x : Rat) - ax) ^ 2 + ((y : Rat) - ay) ^ 2
  else
    let t := clipQ ((((x : Rat) - ax) * dx + ((y : Rat) - ay) * dy) / lengthSq) 0 1
    ((x : Rat) - (ax + t * dx)) ^ 2 + ((y : Rat) - (ay + t * dy)) ^ 2

/-- min over all segments of the squared distance (np.minimum folded
from np.inf); none models the +inf of a polyline with no segment. -/
def minDistSq (r : Ridge) (y x : Int) : Option Rat :=
  (((ridgePts r).zip (ridgePts r).tail).map (segDistSq y x)).min?

/-- The additive ridge contribution at one pixel:
peak_height * exp(-min_dist_sq / (2 * sigma_avg^2)); a polyline with no
segment contributes exp(-inf) = 0. -/
noncomputable def ridgeAddition (r : Ridge) (y x : Int) : Real :=
  match minDistSq r y x with
  | none => 0
  | some d => (r.peakHeight : Real) * Real.exp (-(d : Real) / (2 * (sigmaAvg r : Real) ^ 2))

/-- add_mountain_ridge_fast: add the Gaussian-falloff contribution to
every pixel of the ridge's padded window, in place. -/
noncomputable def add_mountain_ridge_fast (r : Ridge) (heightmap : Grid Real) : Grid Real :=
  fun y x => if inRidgeWindow r y x then heightmap y x + ridgeAddition r y x else heightmap y x

/-! ## Province partitioning (generate_province_map) -/

/-- PROVINCE_CAPITALS of the source: the ordered list of
(id, lon, lat), in dict insertion order (ids 1..41). -/
def PROVINCE_CAPITALS : List (Int × Rat × Rat) :=
  [(1, 23.7, 37.97), (2, 29.9, 31.2), (3, 10.3, 36.8), (4, 6.8, 45.1),
   (5, 7.0, 45.8), (6, 7.3, 43.7), (7, 35.4, 30.3), (8, 44.5, 40.0),
   (9, 27.3, 37.9), (10, 43.0, 36.3), (11, -4.8, 37.9), (12, 29.9, 40.8),
   (13, -0.1, 51.5), (14, 32.8, 39.9), (15, 34.9, 37.0), (16, 9.1, 39.2),
   (17, 24.5, 35.1), (18, 22.8, 45.9), (19, 16.4, 43.5), (20, -0.6, 44.8),
   (21, 6.0, 49.6), (22, 4.8, 45.8), (23, 3.0, 43.2), (24, 6.9, 51.0),
   (25, 8.3, 50.0), (26, 1.2, 41.1), (27, 12.5, 41.9), (28, -7.5, 38.9),
   (29, 22.9, 40.6), (30, 2.2, 36.6), (31, -5.8, 35.8), (32, 44.4, 33.3),
   (33, 28.6, 44.2), (34, 20.5, 44.8), (35, 14.4, 46.8), (36, 18.0, 47.5),
   (37, 16.5, 48.0), (38, 10.9, 48.4), (39, 15.3, 37.1), (40, 36.3, 33.5),
   (41, 29.0, 41.0)]

/-- EMPIRE_EXTENT of the source: the approximate bounding polygon of the
empire. -/
def EMPIRE_EXTENT : List (Rat × Rat) :=
  [(-5.5, 55.0), (-0.5, 55.0), (1.8, 52.0),
   (2.0, 51.0), (6.0, 51.5), (8.0, 51.0),
   (9.0, 51.0), (9.5, 50.0), (10.0, 49.0),
   (12.0, 48.5), (15.0, 48.0), (17.0, 48.5),
   (18.5, 48.5), (20.0, 47.5), (21.0, 47.0),
   (22.5, 48.0), (25.0, 48.0), (27.0, 47.5),
   (28.5, 46.5), (29.0, 45.0),
   (29.0, 44.0), (30.0, 43.5), (31.0, 42.5),
   (33.0, 42.0), (35.0, 42.0),
   (38.0, 41.5), (40.0, 41.5), (42.0, 41.5),
   (44.5, 41.0), (44.5, 40.0),
   (44.5, 38.0), (44.5, 37.0), (44.0, 36.0),
   (44.0, 34.0), (44.5, 33.0),
   (47.0, 31.0), (46.0, 30.0),
   (38.0, 27.0), (35.5, 28.0), (34.5, 29.5),
   (34.5, 31.0), (33.0, 31.0), (30.0, 31.5),
   (30.0, 25.0),
   (25.0, 30.5), (23.0, 31.5), (20.0, 32.0),
   (12.0, 33.0), (10.0, 34.0),
   (5.0, 35.5), (2.0, 35.5), (0.0, 35.0),
   (-5.5, 35.5), (-6.0, 34.0), (-6.0, 33.0),
   (-5.0, 32.0), (-3.0, 31.5),
   (-5.5, 36.0),
   (-10.0, 36.5), (-10.0, 43.5),
   (-4.5, 48.5), (-5.0, 50.0), (-5.5, 50.5),
   (-5.5, 55.0)]

/-- EMPIRE_BRITAIN of the source: the separate Britain boundary. -/
def EMPIRE_BRITAIN : List (Rat × Rat) :=
  [(-5.5, 50.0), (-5.0, 50.5), (-5.5, 51.5), (-5.0, 52.0),
   (-4.0, 52.5), (-3.5, 53.5), (-3.0, 54.5), (-3.5, 55.0),
   (-0.5, 55.0), (0.0, 53.5), (1.5, 52.8), (1.8, 52.0),
   (1.5, 51.0), (0.5, 50.8), (-1.0, 50.7), (-3.0, 50.3),
   (-5.0, 50.0), (-5.5, 50.0)]

/-- The projected pixel vertices of EMPIRE_EXTENT (proved equal to the
conversion of the lon/lat table below). -/
def empireExtentPixels : List (Int × Int) :=
  [(153, 0), (324, 0), (402, 204), (409, 273), (546, 238), (614, 273),
   (648, 273), (665, 341), (682, 409), (750, 443), (853, 477), (921, 443),
   (972, 443), (1024, 512), (1058, 546), (1109, 477), (1194, 477),
   (1262, 512), (1314, 580), (1331, 682), (1331, 750), (1365, 785),
   (1399, 853), (1467, 887), (1536, 887), (1638, 921), (1706, 921),
   (1774, 921), (1860, 955), (1860, 1024), (1860, 1160), (1860, 1228),
   (1843, 1297), (1843, 1433), (1860, 1501), (1945, 1638), (1911, 1706),
   (1638, 1911), (1553, 1843), (1518, 1740), (1518, 1638), (1467, 1638),
   (1365, 1604), (1365, 2048), (1194, 1672), (1126, 1604), (1024, 1570),
   (750, 1501), (682, 1433), (512, 1331), (409, 1331), (341, 1365),
   (153, 1331), (136, 1433), (136, 1501), (170, 1570), (238, 1604),
   (153, 1297), (0, 1262), (0, 785), (187, 443), (170, 341), (153, 307),
   (153, 0)]

/-- The projected pixel vertices of EMPIRE_BRITAIN. -/
def empireBritainPixels : List (Int × Int) :=
  [(153, 341), (170, 307), (153, 238), (170, 204), (204, 170), (221, 102),
   (238, 34), (221, 0), (324, 0), (341, 102), (392, 150), (402, 204),
   (392, 273), (358, 286), (307, 293), (238, 320), (170, 341), (153, 341)]

/-- The empire mask of generate_province_map: EMPIRE_EXTENT then
EMPIRE_BRITAIN rasterized with value 1 onto a zero grid. -/
def empire_mask : Grid Int :=
  rasterize_polygon (rasterize_polygon zeroGrid EMPIRE_EXTENT 1) EMPIRE_BRITAIN 1

/-- A capital converted to pixel space: (pid, (cx, cy)). -/
def capitalPixels : List (Int × Int × Int) :=
  PROVINCE_CAPITALS.map (fun c => (c.1, lonlat_to_xy c.2.1 c.2.2))

/-- Euclidean pixel-space distance from pixel (x, y) to a capital's
pixel, np.sqrt((x - cx)^2 + (y - cy)^2). -/
noncomputable def capDist (c : Int × Int × Int) (y x : Int) : Real :=
  Real.sqrt (((x : Real) - (c.2.1 : Real)) ^ 2 + ((y : Real) - (c.2.2 : Real)) ^ 2)

open scoped Classical in
/-- One capital's update of one pixel's (province, min_dist) state:
wherever dist < min_dist (np.inf modelled as none, so the first capital
is always closer) the distance is recorded, and the id as well if the
pixel is assignable. -/
noncomputable def capitalStep (y x : Int) (assignable : Bool)
    (st : Int × Option Real) (c : Int × Int × Int) : Int × Option Real :=
  let d := capDist c y x
  match st with
  | (p, none) => ((if assignable then c.1 else p), some d)
  | (p, some m) => ((if d < m ∧ assignable then c.1 else p), if d < m then some d else some m)

/-- The nearest-capital assignment of generate_province_map for one
pixel: fold the ordered capital list over the (0, inf) initial state,
then force non-assignable pixels to 0. -/
noncomputable def province_assign (capitals : List (Int × Int × Int))
    (landMask empireMask : Grid Int) : Grid Int := fun y x =>
  let assignable : Bool := decide (landMask y x = 1 ∧ empireMask y x = 1)
  if assignable then (capitals.foldl (capitalStep y x assignable) (0, none)).1 else 0

/-- generate_province_map: the assignment with the source's capital
list and empire mask (the land mask is the caller-supplied parameter,
derived in main from the thresholded heightmap). -/
noncomputable def generate_province_map (landMask : Grid Int) : Grid Int :=
  province_assign capitalPixels landMask empire_mask

/-! ## Test geometry for the rasterizer (spec section 8) -/

/-- A unit (one pixel) square polygon aligned to pixel boundaries: its
corners project exactly onto the pixel-space lattice points (a, b),
(a+1, b), (a+1, b+1), (a, b+1). -/
def unit_square_poly (a b : Int) : List (Rat × Rat) :=
  [(x_to_lon a, y_to_lat b), (x_to_lon (a + 1), y_to_lat b),
   (x_to_lon (a + 1), y_to_lat (b + 1)), (x_to_lon a, y_to_lat (b + 1))]

/-- Pixel (row r, column c) has its center strictly inside the
pixel-aligned unit square with corners (a, b) and (a+1, b+1): pixel
centers sit at half-integer offsets in pixel space. -/
def center_in_unit_square (a b r c : Int) : Prop :=
  (a : Rat) < (c : Rat) + 1 / 2 ∧ (c : Rat) + 1 / 2 < (a : Rat) + 1 ∧
  (b : Rat) < (r : Rat) + 1 / 2 ∧ (r : Rat) + 1 / 2 < (b : Rat) + 1

instance (a b r c : Int) : Decidable (center_in_unit_square a b r c) := by
  unfold center_in_unit_square; infer_instance

/-! ## The manual distance transform (_manual_distance_transform) -/

/-- A 2-D numpy array with an explicit shape, for the parts of the code
whose behavior depends on shapes (broadcasting). -/
structure Arr where
  rows : Nat
  cols : Nat
  data : Nat → Nat → Int

/-- One axis of the numpy broadcast rule: sizes must agree or one of
them must be 1. -/
def bcDim (a b : Nat) : Option Nat :=
  if a = b then some a else if a = 1 then some b else if b = 1 then some a else none

/-- Elementwise numpy addition with 2-D broadcasting; none models the
ValueError numpy raises when the shapes are incompatible. -/
def npAdd (a b : Arr) : Option Arr :=
  match bcDim a.rows b.rows, bcDim a.cols b.cols with
  | some r, some c =>
    some ⟨r, c, fun i j =>
      a.data (if a.rows = 1 then 0 else i) (if a.cols = 1 then 0 else j) +
      b.data (if b.rows = 1 then 0 else i) (if b.cols = 1 then 0 else j)⟩
  | _, _ => none

/-- arr[1:, :]. -/
def sliceRowsFrom1 (a : Arr) : Arr := ⟨a.rows - 1, a.cols, fun i j => a.data (i + 1) j⟩

/-- arr[:-1, :]. -/
def sliceRowsDropLast (a : Arr) : Arr := ⟨a.rows - 1, a.cols, a.data⟩

/-- arr[:, 1:]. -/
def sliceColsFrom1 (a : Arr) : Arr := ⟨a.rows, a.cols - 1, fun i j => a.data i (j + 1)⟩

/-- arr[:, :-1]. -/
def sliceColsDropLast (a : Arr) : Arr := ⟨a.rows, a.cols - 1, a.data⟩

/-- arr.any(): some in-range cell is nonzero. -/
def anyNonzero (a : Arr) : Bool :=
  (List.range a.rows).any (fun i => (List.range a.cols).any (fun j => a.data i j ≠ 0))

/-- The erosion-loop body's four-term sum
current[1:, :] + current[:-1, :] + current[:, 1:] + current[:, :-1]
(the int8 casts do not change the 0/1 values); none is numpy's
broadcast ValueError. -/
def erosionSum (current : Arr) : Option Arr :=
  match npAdd (sliceRowsFrom1 current) (sliceRowsDropLast current) with
  | none => none
  | some s1 =>
    match npAdd s1 (sliceColsFrom1 current) with
    | none => none
    | some s2 => npAdd s2 (sliceColsDropLast current)

/-- A float-valued numpy array (the type of the returned distance
field). -/
structure ArrQ where
  rows : Nat
  cols : Nat
  data : Nat → Nat → Rat

/-- The fallback _manual_distance_transform.  The while loop runs its body at most
once and breaks, so the erosion result is discarded; but the body's
four-term sum is evaluated first, and raises numpy's broadcast
ValueError (modelled as none) whenever the mask has a set pixel and the
shapes are incompatible.  Only if the loop is skipped or the sum
broadcasts does control fall through to the Gaussian-blur fallback
(PIL's GaussianBlur radius 6, an external library, is the blur
parameter, a uint8-image to uint8-image function):
dist = np.array(blurred, float) / 255 * 10.  The in-place AND updates
on the zero array eroded before the sum are discarded and not
modelled. -/
def manual_distance_transform (blur : Arr → Arr) (binary : Arr) : Option ArrQ :=
  let blurResult : ArrQ :=
    let img : Arr := ⟨binary.rows, binary.cols, fun i j => binary.data i j * 255 % 256⟩
    let blurred := blur img
    ⟨blurred.rows, blurred.cols, fun i j => (blurred.data i j : Rat) / 255 * 10⟩
  if anyNonzero binary then
    match erosionSum binary with
    | none => none
    | some _ => some blurResult
  else some blurResult

/-! ## Helper lemmas -/

/-- Truncation toward zero of an exact integer recovers the integer. -/
lemma pyInt_intCast (n : Int) : pyInt (n : Rat) = n := by
  unfold pyInt
  split
  · exact Int.floor_intCast n
  · exact Int.ceil_intCast n

/-- pyInt agrees with the floor on nonnegative arguments. -/
lemma pyInt_of_nonneg (q : Rat) (h : 0 ≤ q) : pyInt q = ⌊q⌋ := by
  unfold pyInt
  exact if_pos h

/-- The clip of any value into 0..127 is within 0..127. -/
lemma clipQ_mem (q : Rat) : 0 ≤ clipQ q 0 127 ∧ clipQ q 0 127 ≤ 127 := by
  unfold clipQ
  exact ⟨le_max_left 0 _, max_le (by norm_num) (min_le_right q 127)⟩

/-- The longitude round trip on one pixel column. -/
lemma lon_roundtrip (u : Int) : lon_to_x (x_to_lon u) = u := by
  have harg : (x_to_lon u - LON_MIN) / LON_RANGE * (WIDTH : Rat) = (u : Rat) := by
    simp only [x_to_lon, LON_RANGE, LON_MAX, LON_MIN, WIDTH]
    push_cast
    ring
  unfold lon_to_x
  rw [harg]
  exact pyInt_intCast u

/-- The latitude round trip on one pixel row. -/
lemma lat_roundtrip (v : Int) : lat_to_y (y_to_lat v) = v := by
  have harg : (LAT_MAX - y_to_lat v) / LAT_RANGE * (HEIGHT : Rat) = (v : Rat) := by
    simp only [y_to_lat, LAT_RANGE, LAT_MAX, LAT_MIN, HEIGHT]
    push_cast
    ring
  unfold lat_to_y
  rw [harg]
  exact pyInt_intCast v

/-- Bounds of the quantized enforcement step at one pixel. -/
lemma finalize_bounds (mask : Grid Int) (g : Grid Rat) (y x : Int) :
    (0 ≤ finalize_elevation mask g y x ∧ finalize_elevation mask g y x ≤ 127) ∧
    (mask y x = 1 → 32 < finalize_elevation mask g y x) ∧
    (mask y x ≠ 1 → finalize_elevation mask g y x ≤ 32) := by
  unfold finalize_elevation
  set v := enforce_water_line mask g y x with hv
  have hc := clipQ_mem v
  rw [pyInt_of_nonneg _ hc.1]
  refine ⟨⟨?_, ?_⟩, ?_, ?_⟩
  · exact Int.le_floor.mpr (by exact_mod_cast hc.1)
  · have := Int.floor_le_floor hc.2
    simpa using this
  · intro h1
    have h33 : (33 : Rat) ≤ clipQ v 0 127 := by
      have hv33 : (33 : Rat) ≤ v := by
        rw [hv]
        unfold enforce_water_line WATER_LEVEL
        rw [if_pos h1]
        norm_num [le_max_iff]
      unfold clipQ
      rcases le_total v 127 with h | h
      · rw [min_eq_left h]
        exact le_max_of_le_right hv33
      · rw [min_eq_right h]
        norm_num
    have : (33 : Int) ≤ ⌊clipQ v 0 127⌋ := Int.le_floor.mpr (by exact_mod_cast h33)
    omega
  · intro h1
    have h32 : clipQ v 0 127 ≤ 32 := by
      have hv32 : v ≤ 32 := by
        rw [hv]
        unfold enforce_water_line WATER_LEVEL
        rw [if_neg h1]
        norm_num [min_le_iff]
      unfold clipQ
      exact max_le (by norm_num) (le_trans (min_le_left _ _) hv32)
    have : ⌊clipQ v 0 127⌋ ≤ ⌊(32 : Rat)⌋ := Int.floor_le_floor h32
    simpa using this

/-! ## C1: invariants of the final elevation grid -/

/-- C1: every pixel of the final elevation grid lies in 0..127; land
pixels (mask = 1) are strictly above WATER_LEVEL = 32 and ocean pixels
(mask = 0) at most 32 — for EVERY pre-enforcement field g, i.e.
regardless of any intermediate violations earlier in the pipeline,
because finalize_elevation is the terminal transformation of
generate_heightmap. -/
theorem final_grid_invariant_c1 (mask : Grid Int) (g : Grid Rat) (y x : Int) :
    (0 ≤ finalize_elevation mask g y x ∧ finalize_elevation mask g y x ≤ 127) ∧
    (mask y x = 1 → WATER_LEVEL < finalize_elevation mask g y x) ∧
    (mask y x = 0 → finalize_elevation mask g y x ≤ WATER_LEVEL) := by
  have h := finalize_bounds mask g y x
  unfold WATER_LEVEL
  refine ⟨h.1, fun h1 => ?_, fun h0 => ?_⟩
  · exact h.2.1 h1
  · have hne : mask y x ≠ 1 := by omega
    exact h.2.2 hne

/-! ## C3: coordinate round trip -/

/-- C3: for every integer pixel coordinate x in 0..WIDTH-1 and y in
0..HEIGHT-1, the forward projections recover the pixel exactly:
lon_to_x (x_to_lon x) = x and lat_to_y (y_to_lat y) = y. -/
theorem coordinate_roundtrip_c3 (x y : Int) (hx0 : 0 ≤ x) (hx : x < WIDTH)
    (hy0 : 0 ≤ y) (hy : y < HEIGHT) :
    lon_to_x (x_to_lon x) = x ∧ lat_to_y (y_to_lat y) = y :=
  ⟨lon_roundtrip x, lat_roundtrip y⟩

/-- Witness for C3 at the concrete pixel (7, 2047). -/
theorem coordinate_roundtrip_c3_witness :
    lon_to_x (x_to_lon 7) = 7 ∧ lat_to_y (y_to_lat 2047) = 2047 :=
  ⟨(coordinate_roundtrip_c3 7 2047 (by decide) (by decide) (by decide) (by decide)).1,
   (coordinate_roundtrip_c3 7 2047 (by decide) (by decide) (by decide) (by decide)).2⟩

/-! ## C7: ridge synthesis is commutative -/

/-- C7: applying add_mountain_ridge_fast with ridge R1 then R2 yields
exactly the same elevation field as R2 then R1 (each ridge's
contribution is purely additive and independent of the running
field). -/
theorem ridge_commutative_c7 (r1 r2 : Ridge) (f : Grid Real) :
    add_mountain_ridge_fast r1 (add_mountain_ridge_fast r2 f) =
      add_mountain_ridge_fast r2 (add_mountain_ridge_fast r1 f) := by
  funext y x
  simp only [add_mountain_ridge_fast]
  by_cases h1 : inRidgeWindow r1 y x <;> by_cases h2 : inRidgeWindow r2 y x <;>
    simp [h1, h2] <;> ring

/-! ## C9: the rasterizer only writes inside the raster extent -/

/-- C9: for every polygon (also one projecting outside the grid), every
pixel outside rows 0..HEIGHT-1 or columns 0..WIDTH-1 is left untouched
by rasterize_polygon: the bounding box and each fill span are clamped
to the raster extent.  The embedded function is total: no input is
rejected. -/
theorem rasterize_clamped_c9 (mask : Grid Int) (polygon : List (Rat × Rat)) (value r c : Int)
    (h : r < 0 ∨ HEIGHT ≤ r ∨ c < 0 ∨ WIDTH ≤ c) :
    rasterize_polygon mask polygon value r c = mask r c := by
  by_cases hp : polygon = []
  · simp [rasterize_polygon, hp]
  · unfold rasterize_polygon
    rw [if_neg hp]
    split
    · next hcond =>
      exfalso
      obtain ⟨hy1, hy2, hany⟩ := hcond
      obtain ⟨s, _, hs⟩ := List.any_eq_true.mp hany
      have hspan := of_decide_eq_true hs
      have h0y : (0 : Int) ≤ r := le_trans (le_max_left _ _) hy1
      have hylt : r ≤ HEIGHT - 1 := le_trans hy2 (min_le_left _ _)
      have h0x : (0 : Int) ≤ c :=
        le_trans (le_trans (le_max_left _ _) (le_max_left _ _)) hspan.1
      have hxlt : c ≤ WIDTH - 1 :=
        le_trans hspan.2 (le_trans (min_le_left _ _) (min_le_left _ _))
      simp only [HEIGHT, WIDTH] at h hylt hxlt
      omega
    · rfl

/-- Witness for C9: a polygon far outside the frame, probed at the
out-of-range pixel (-1, 5), leaves the grid unchanged. -/
theorem rasterize_clamped_c9_witness :
    rasterize_polygon zeroGrid [(-20, 60), (55, 60), (55, 20), (-20, 20)] 1 (-1) 5 =
      zeroGrid (-1) 5 :=
  rasterize_clamped_c9 zeroGrid [(-20, 60), (55, 60), (55, 20), (-20, 20)] 1 (-1) 5
    (Or.inl (by decide))

/-! ## C4: invariant enforcement around smoothing -/

/-- C4 counterexample: a coastal configuration (land column 0 at
combined height 10, ocean elsewhere at 0) on which the code's stage
(invariant enforced only after the box smoothing) and the spec's stage
(invariant additionally enforced before smoothing) give different
output at the ocean pixel (0, 1): 3 versus 11.  So the code does not
enforce the invariant on the combined field before smoothing. -/
theorem coastal_enforce_once_c4_counterexample :
    coastal_stage (manual_smooth 2048 2048) (fun _ x => if x ≤ 0 then 1 else 0)
        (fun _ _ => 10) (fun _ _ => 6) (fun _ _ => 6) (fun _ _ => 0) 0 1 ≠
      coastal_stage_spec (manual_smooth 2048 2048) (fun _ x => if x ≤ 0 then 1 else 0)
        (fun _ _ => 10) (fun _ _ => 6) (fun _ _ => 6) (fun _ _ => 0) 0 1 := by
  have hL : coastal_stage (manual_smooth 2048 2048) (fun _ x => if x ≤ 0 then 1 else 0)
      (fun _ _ => 10) (fun _ _ => 6) (fun _ _ => 6) (fun _ _ => 0) 0 1 = 3 := by
    norm_num [coastal_stage, finalize_elevation, enforce_water_line,
      coastal_combine, manual_smooth, manual_smooth_pass, clampIdx, clipQ, pyInt,
      COAST_HEIGHT, WATER_LEVEL, Int.floor_eq_iff]
  have hR : coastal_stage_spec (manual_smooth 2048 2048) (fun _ x => if x ≤ 0 then 1 else 0)
      (fun _ _ => 10) (fun _ _ => 6) (fun _ _ => 6) (fun _ _ => 0) 0 1 = 11 := by
    norm_num [coastal_stage_spec, finalize_elevation, enforce_water_line,
      coastal_combine, manual_smooth, manual_smooth_pass, clampIdx, clipQ, pyInt,
      COAST_HEIGHT, WATER_LEVEL, Int.floor_eq_iff]
  rw [hL, hR]
  decide

/-- C4 as amended: the coastal-blend stage enforces the land/sea
invariant exactly once, unconditionally, after smoothing — the combined
field is fed to the smoothing unenforced — and because that single
enforcement is the last step before quantization, the stage output
satisfies the invariant for every smoothing function. -/
theorem coastal_enforce_once_c4 (smooth : Grid Rat → Grid Rat) (mask : Grid Int)
    (hm ld od dep : Grid Rat) (y x : Int) :
    coastal_stage smooth mask hm ld od dep y x =
      finalize_elevation mask (smooth (coastal_combine mask hm ld od dep)) y x ∧
    (mask y x = 1 → WATER_LEVEL < coastal_stage smooth mask hm ld od dep y x) ∧
    (mask y x ≠ 1 → coastal_stage smooth mask hm ld od dep y x ≤ WATER_LEVEL) := by
  have h := finalize_bounds mask (smooth (coastal_combine mask hm ld od dep)) y x
  unfold WATER_LEVEL
  exact ⟨rfl, h.2.1, h.2.2⟩

/-! ## C10: the manual distance transform hard-fails -/

/-- C10: at a 3x3 mask with one set pixel, _manual_distance_transform
enters its erosion loop and evaluates the four-term sum whose operands
have incompatible shapes (2x3 and 3x2), so numpy raises a broadcast
ValueError (modelled as none) before the Gaussian-blur fallback is ever
reached — for every blur function.  The no-scipy path of the pipeline
therefore hard-fails on any mask with a set pixel (the 2048x2048 land
mask included), contrary to the claim. -/
theorem manual_distance_transform_fails_c10 (blur : Arr → Arr) :
    manual_distance_transform blur ⟨3, 3, fun i j => if i = 1 ∧ j = 1 then 1 else 0⟩ =
      none := by
  rfl

/-! ## C6: ocean depth blending -/

/-- e^4 is below 100 (so the Gaussian influence at the window corner,
e^-4, is above the 0.01 update threshold). -/
lemma exp_four_lt_hundred : Real.exp 4 < 100 := by
  have h1 : Real.exp 1 < 2.7182818286 := Real.exp_one_lt_d9
  have h4 : Real.exp 4 = Real.exp 1 ^ (4 : Nat) := by
    rw [show (4 : Real) = ((4 : Nat) : Real) * 1 by norm_num, Real.exp_nat_mul]
  rw [h4]
  calc Real.exp 1 ^ (4 : Nat) < 2.7182818286 ^ (4 : Nat) := by
        exact pow_lt_pow_left h1 (Real.exp_pos 1).le (by norm_num)
    _ < 100 := by norm_num

/-- Inside a basin's window (with a positive pixel radius) the
normalized squared distance is at most 8, hence the Gaussian influence
exceeds the 0.01 threshold: the conditional update is unconditional on
the window. -/
lemma basin_influence_gt (b : Basin) (hr : 1 ≤ rPixels b) (y x : Int)
    (hw : inBasinWindow b y x) : basinInfluence b y x > 0.01 := by
  obtain ⟨hy1, hy2, hx1, hx2⟩ := hw
  have hyl : basinCy b - rPixels b * 2 ≤ y := le_trans (le_max_right _ _) hy1
  have hyu : y < basinCy b + rPixels b * 2 := lt_of_lt_of_le hy2 (min_le_right _ _)
  have hxl : basinCx b - rPixels b * 2 ≤ x := le_trans (le_max_right _ _) hx1
  have hxu : x < basinCx b + rPixels b * 2 := lt_of_lt_of_le hx2 (min_le_right _ _)
  have hR : (1 : Real) ≤ (rPixels b : Real) := by exact_mod_cast hr
  have hRpos : (0 : Real) < (rPixels b : Real) := by linarith
  have hdy : ((y : Real) - (basinCy b : Real)) ^ 2 ≤ (2 * (rPixels b : Real)) ^ 2 := by
    have h1 : ((y : Real) - (basinCy b : Real)) ≤ 2 * (rPixels b : Real) := by
      have : (y : Real) < (basinCy b : Real) + (rPixels b : Real) * 2 := by
        exact_mod_cast hyu
      linarith
    have h2 : -(2 * (rPixels b : Real)) ≤ ((y : Real) - (basinCy b : Real)) := by
      have : ((basinCy b : Real) - (rPixels b : Real) * 2) ≤ (y : Real) := by
        exact_mod_cast hyl
      linarith
    nlinarith
  have hdx : ((x : Real) - (basinCx b : Real)) ^ 2 ≤ (2 * (rPixels b : Real)) ^ 2 := by
    have h1 : ((x : Real) - (basinCx b : Real)) ≤ 2 * (rPixels b : Real) := by
      have : (x : Real) < (basinCx b : Real) + (rPixels b : Real) * 2 := by
        exact_mod_cast hxu
      linarith
    have h2 : -(2 * (rPixels b : Real)) ≤ ((x : Real) - (basinCx b : Real)) := by
      have : ((basinCx b : Real) - (rPixels b : Real) * 2) ≤ (x : Real) := by
        exact_mod_cast hxl
      linarith
    nlinarith
  have hD : basinDist b y x ^ 2 ≤ 8 := by
    unfold basinDist
    rw [Real.sq_sqrt (by positivity)]
    have e1 : (((x : Real) - (basinCx b : Real)) / (rPixels b : Real)) ^ 2 ≤ 4 := by
      rw [div_pow, div_le_iff (by positivity)]
      nlinarith
    have e2 : (((y : Real) - (basinCy b : Real)) / (rPixels b : Real)) ^ 2 ≤ 4 := by
      rw [div_pow, div_le_iff (by positivity)]
      nlinarith
    linarith
  unfold basinInfluence
  have harg : (-4 : Real) ≤ -(basinDist b y x) ^ 2 * (1 / 2) := by nlinarith
  have hmono : Real.exp (-4) ≤ Real.exp (-(basinDist b y x) ^ 2 * (1 / 2)) :=
    Real.exp_le_exp.mpr harg
  have hlow : (0.01 : Real) < Real.exp (-4) := by
    rw [Real.exp_neg, show (0.01 : Real) = (100 : Real)⁻¹ by norm_num]
    exact inv_lt_inv_of_lt (Real.exp_pos 4) exp_four_lt_hundred
  linarith

/-- Inside the window the guarded update equals the unguarded blend. -/
lemma basinStep_eq_spec (b : Basin) (hr : 1 ≤ rPixels b) (y x : Int) (d : Real) :
    basinStep y x d b = basinBlendSpec y x d b := by
  unfold basinStep basinBlendSpec
  by_cases hw : inBasinWindow b y x
  · rw [if_pos hw, if_pos hw, if_pos (basin_influence_gt b hr y x hw)]
  · rw [if_neg hw, if_neg hw]

/-- The guarded fold equals the unguarded fold over any basin list with
positive pixel radii. -/
lemma basin_fold_eq (y x : Int) (basins : List Basin)
    (h : ∀ b ∈ basins, 1 ≤ rPixels b) :
    ∀ d : Real, basins.foldl (basinStep y x) d = basins.foldl (basinBlendSpec y x) d := by
  induction basins with
  | nil => intro d; rfl
  | cons b bs ih =>
    intro d
    simp only [List.foldl_cons]
    rw [basinStep_eq_spec b (h b (List.mem_cons_self b bs)) y x d]
    exact ih (fun c hc => h c (List.mem_cons_of_mem b hc)) _

/-- Every declared ocean basin has pixel radius at least one. -/
lemma ocean_basins_radius_pos : ∀ b ∈ OCEAN_BASINS, 1 ≤ rPixels b := by
  intro b hb
  fin_cases hb <;>
    (simp only [rPixels]
     rw [pyInt_of_nonneg _ (by norm_num [LON_RANGE, LON_MAX, LON_MIN, WIDTH]), Int.le_floor]
     norm_num [LON_RANGE, LON_MAX, LON_MIN, WIDTH])

/-- C6: create_ocean_depth on the declared basin list starts from the
uniform base depth 15.0 and, for each basin in declared order, blends
EVERY cell of the basin's window (the influence > 0.01 guard never
excludes a window cell) by depth * (1 - influence) + target * influence
with influence the Gaussian of the normalized radial distance; and
after all basins are processed, every cell where the land mask is set
is zero. -/
theorem ocean_depth_c6 (landMask : Grid Int) (y x : Int) :
    (landMask y x ≠ 0 → create_ocean_depth OCEAN_BASINS landMask y x = 0) ∧
    (landMask y x = 0 →
      create_ocean_depth OCEAN_BASINS landMask y x =
        OCEAN_BASINS.foldl (basinBlendSpec y x) 15) := by
  constructor
  · intro h
    unfold create_ocean_depth
    rw [if_neg h]
  · intro h
    unfold create_ocean_depth
    rw [if_pos h]
    exact basin_fold_eq y x OCEAN_BASINS ocean_basins_radius_pos 15

/-! ## C2: nearest-capital assignment -/

set_option maxHeartbeats 1000000 in
/-- The pixel projection of the EMPIRE_EXTENT vertex table. -/
lemma empire_extent_pixels_eq :
    EMPIRE_EXTENT.map (fun q => lonlat_to_xy q.1 q.2) = empireExtentPixels := by
  norm_num [EMPIRE_EXTENT, empireExtentPixels, lonlat_to_xy, lon_to_x, lat_to_y, pyInt,
    LON_RANGE, LON_MAX, LON_MIN, LAT_RANGE, LAT_MAX, LAT_MIN, WIDTH, HEIGHT,
    Int.floor_eq_iff]

set_option maxHeartbeats 1000000 in
/-- The pixel projection of the EMPIRE_BRITAIN vertex table. -/
lemma empire_britain_pixels_eq :
    EMPIRE_BRITAIN.map (fun q => lonlat_to_xy q.1 q.2) = empireBritainPixels := by
  norm_num [EMPIRE_BRITAIN, empireBritainPixels, lonlat_to_xy, lon_to_x, lat_to_y, pyInt,
    LON_RANGE, LON_MAX, LON_MIN, LAT_RANGE, LAT_MAX, LAT_MIN, WIDTH, HEIGHT,
    Int.floor_eq_iff]

set_option maxHeartbeats 2000000 in
/-- The empire-extent scanline of row 894 yields a single fill span
from x = 0 to x = 1557. -/
lemma row_spans_extent_894 :
    row_spans empireExtentPixels 894 = [((0 : Rat), 1557)] := by
  norm_num [row_spans, empireExtentPixels, scan_intersections, pairUp,
    List.insertionSort, List.orderedInsert]

set_option maxHeartbeats 2000000 in
set_option maxRecDepth 4000 in
/-- The empire mask is set at (row 894, column 768), the projected
pixel of Rome (12.5 E, 41.9 N): with any land mask equal to 1 there,
the assignable-pixel case of the C2 theorem below is non-vacuous. -/
lemma empire_mask_rome : empire_mask 894 768 = 1 := by
  unfold empire_mask rasterize_polygon
  rw [if_neg (show ¬(EMPIRE_BRITAIN = ([] : List (Rat × Rat))) by simp [EMPIRE_BRITAIN])]
  rw [if_neg (show ¬(EMPIRE_EXTENT = ([] : List (Rat × Rat))) by simp [EMPIRE_EXTENT])]
  simp only [empire_britain_pixels_eq, empire_extent_pixels_eq]
  rw [if_neg (by rintro ⟨h1, h2, h3⟩; revert h2; decide)]
  rw [if_pos]
  refine ⟨by decide, by decide, ?_⟩
  rw [row_spans_extent_894]
  simp only [List.any_cons, List.any_nil, Bool.or_false]
  rw [show ⌈(0 : Rat)⌉ = (0 : Int) from by norm_num]
  rw [show ⌊(1557 : Rat)⌋ = (1557 : Int) from by norm_num [Int.floor_eq_iff]]
  decide

/-- One update of capitalStep from a some-state, as a single
conditional. -/
lemma capitalStep_some (y x : Int) (c : Int × Int × Int) (p : Int) (m : Real) :
    capitalStep y x true (p, some m) c =
      if capDist c y x < m then (c.1, some (capDist c y x)) else (p, some m) := by
  unfold capitalStep
  by_cases h : capDist c y x < m
  · simp [h]
  · simp [h]

/-- The first update of capitalStep from the initial none-state always
records the capital. -/
lemma capitalStep_none (y x : Int) (c : Int × Int × Int) (p : Int) :
    capitalStep y x true (p, none) c = (c.1, some (capDist c y x)) := by
  unfold capitalStep
  simp

/-- Folding the capital list from a recorded minimum (p, m): either no
capital beats m and the state is unchanged, or the state ends at the
first capital of the list attaining the strict minimum below m. -/
lemma capital_fold_some (y x : Int) :
    ∀ (l : List (Int × Int × Int)) (p : Int) (m : Real),
      (l.foldl (capitalStep y x true) (p, some m) = (p, some m) ∧
        ∀ c ∈ l, ¬(capDist c y x < m)) ∨
      (∃ k, ∃ hk : k < l.length,
        l.foldl (capitalStep y x true) (p, some m) =
          ((l.get ⟨k, hk⟩).1, some (capDist (l.get ⟨k, hk⟩) y x)) ∧
        capDist (l.get ⟨k, hk⟩) y x < m ∧
        (∀ j, ∀ hj : j < l.length,
          capDist (l.get ⟨k, hk⟩) y x ≤ capDist (l.get ⟨j, hj⟩) y x) ∧
        (∀ j, ∀ hj : j < l.length, j < k →
          capDist (l.get ⟨k, hk⟩) y x < capDist (l.get ⟨j, hj⟩) y x)) := by
  intro l
  induction l with
  | nil =>
    intro p m
    left
    exact ⟨rfl, by simp⟩
  | cons c cs ih =>
    intro p m
    rw [List.foldl_cons, capitalStep_some]
    by_cases h : capDist c y x < m
    · rw [if_pos h]
      rcases ih c.1 (capDist c y x) with ⟨heq, hall⟩ | ⟨k, hk, heq, hlt, hmin, hfirst⟩
      · right
        refine ⟨0, by simp, ?_, h, ?_, ?_⟩
        · rw [heq]
          simp
        · intro j hj
          match j with
          | 0 => simp
          | j + 1 =>
            simp only [List.get_cons_succ, List.get_cons_zero]
            have hmem : cs.get ⟨j, by simpa using hj⟩ ∈ cs := List.get_mem cs _ _
            exact le_of_not_lt (hall _ hmem)
        · intro j hj hj0
          omega
      · right
        refine ⟨k + 1, by simpa using hk, ?_, lt_trans hlt h, ?_, ?_⟩
        · rw [heq]
          simp
        · intro j hj
          match j with
          | 0 =>
            simp only [List.get_cons_succ, List.get_cons_zero]
            exact le_of_lt hlt
          | j + 1 =>
            simp only [List.get_cons_succ]
            exact hmin j (by simpa using hj)
        · intro j hj hjk
          match j with
          | 0 =>
            simp only [List.get_cons_succ, List.get_cons_zero]
            exact hlt
          | j + 1 =>
            simp only [List.get_cons_succ]
            exact hfirst j (by simpa using hj) (by omega)
    · rw [if_neg h]
      rcases ih p m with ⟨heq, hall⟩ | ⟨k, hk, heq, hlt, hmin, hfirst⟩
      · left
        refine ⟨heq, ?_⟩
        intro d hd
        rcases List.mem_cons.mp hd with rfl | hd
        · exact h
        · exact hall d hd
      · right
        refine ⟨k + 1, by simpa using hk, ?_, hlt, ?_, ?_⟩
        · rw [heq]
          simp
        · intro j hj
          match j with
          | 0 =>
            simp only [List.get_cons_succ, List.get_cons_zero]
            exact le_trans (le_of_lt hlt) (not_lt.mp h)
          | j + 1 =>
            simp only [List.get_cons_succ]
            exact hmin j (by simpa using hj)
        · intro j hj hjk
          match j with
          | 0 =>
            simp only [List.get_cons_succ, List.get_cons_zero]
            exact lt_of_lt_of_le hlt (not_lt.mp h)
          | j + 1 =>
            simp only [List.get_cons_succ]
            exact hfirst j (by simpa using hj) (by omega)

/-- For an assignable pixel and a nonempty capital list, the assignment
is the first capital attaining the minimum distance. -/
lemma province_assign_nearest (caps : List (Int × Int × Int))
    (landMask empireMask : Grid Int) (y x : Int) (hne : caps ≠ [])
    (hl : landMask y x = 1) (he : empireMask y x = 1) :
    ∃ k, ∃ hk : k < caps.length,
      province_assign caps landMask empireMask y x = (caps.get ⟨k, hk⟩).1 ∧
      (∀ j, ∀ hj : j < caps.length,
        capDist (caps.get ⟨k, hk⟩) y x ≤ capDist (caps.get ⟨j, hj⟩) y x) ∧
      (∀ j, ∀ hj : j < caps.length, j < k →
        capDist (caps.get ⟨k, hk⟩) y x < capDist (caps.get ⟨j, hj⟩) y x) := by
  match caps, hne with
  | c :: cs, _ =>
    have hassign : decide (landMask y x = 1 ∧ empireMask y x = 1) = true := by
      simp [hl, he]
    unfold province_assign
    simp only [hassign, if_true, List.foldl_cons, capitalStep_none]
    rcases capital_fold_some y x cs c.1 (capDist c y x) with
      ⟨heq, hall⟩ | ⟨k, hk, heq, hlt, hmin, hfirst⟩
    · refine ⟨0, by simp, ?_, ?_, ?_⟩
      · rw [heq]
        simp
      · intro j hj
        match j with
        | 0 => simp
        | j + 1 =>
          simp only [List.get_cons_succ, List.get_cons_zero]
          have hmem : cs.get ⟨j, by simpa using hj⟩ ∈ cs := List.get_mem cs _ _
          exact le_of_not_lt (hall _ hmem)
      · intro j hj hj0
        omega
    · refine ⟨k + 1, by simpa using hk, ?_, ?_, ?_⟩
      · rw [heq]
        simp
      · intro j hj
        match j with
        | 0 =>
          simp only [List.get_cons_succ, List.get_cons_zero]
          exact le_of_lt hlt
        | j + 1 =>
          simp only [List.get_cons_succ]
          exact hmin j (by simpa using hj)
      · intro j hj hjk
        match j with
        | 0 =>
          simp only [List.get_cons_succ, List.get_cons_zero]
          exact hlt
        | j + 1 =>
          simp only [List.get_cons_succ]
          exact hfirst j (by simpa using hj) (by omega)

/-- C2: in the map produced by generate_province_map, every assignable
pixel (land mask = 1 and empire mask = 1) carries the id of the capital
at minimum pixel-space Euclidean distance, an exact tie resolving to
the capital listed earlier (every capital before the winner is strictly
farther); and every non-assignable pixel carries id 0 regardless of
capital proximity. -/
theorem province_nearest_c2 (landMask : Grid Int) (y x : Int) :
    ((landMask y x = 1 ∧ empire_mask y x = 1) →
      ∃ k, ∃ hk : k < capitalPixels.length,
        generate_province_map landMask y x = (capitalPixels.get ⟨k, hk⟩).1 ∧
        (∀ j, ∀ hj : j < capitalPixels.length,
          capDist (capitalPixels.get ⟨k, hk⟩) y x ≤
            capDist (capitalPixels.get ⟨j, hj⟩) y x) ∧
        (∀ j, ∀ hj : j < capitalPixels.length, j < k →
          capDist (capitalPixels.get ⟨k, hk⟩) y x <
            capDist (capitalPixels.get ⟨j, hj⟩) y x)) ∧
    (¬(landMask y x = 1 ∧ empire_mask y x = 1) →
      generate_province_map landMask y x = 0) := by
  constructor
  · rintro ⟨hl, he⟩
    exact province_assign_nearest capitalPixels landMask empire_mask y x
      (by simp [capitalPixels, PROVINCE_CAPITALS]) hl he
  · intro h
    have hdec : decide (landMask y x = 1 ∧ empire_mask y x = 1) = false := by
      simpa using h
    unfold generate_province_map province_assign
    rw [hdec]
    simp

/-! ## C5: the empty capital list -/

/-- C5 counterexample: with an empty capital list and every pixel
assignable (all-ones land and empire masks), generate_province_map's
assignment silently returns the all-zero province raster — it does not
fail with a configuration error. -/
theorem empty_capitals_c5_counterexample :
    province_assign [] (fun _ _ => 1) (fun _ _ => 1) = zeroGrid := by
  funext y x
  simp [province_assign, zeroGrid]

/-- C5 as amended: the partitioner performs no emptiness check; for an
empty ordered capital list it silently returns the all-zero province
raster for every land and empire mask (in the source the capital list
is a hardcoded nonempty table, so the branch is unreachable there). -/
theorem empty_capitals_c5 (landMask empireMask : Grid Int) :
    province_assign [] landMask empireMask = zeroGrid := by
  funext y x
  simp [province_assign, zeroGrid]

/-! ## C8: filling a pixel-aligned unit square -/

/-- The unit square's projected pixel polygon. -/
lemma unit_square_pixels (a b : Int) :
    (unit_square_poly a b).map (fun q => lonlat_to_xy q.1 q.2) =
      [(a, b), (a + 1, b), (a + 1, b + 1), (a, b + 1)] := by
  simp [unit_square_poly, lonlat_to_xy, lon_roundtrip, lat_roundtrip]

/-- The scanline through the top row of the unit square hits the two
vertical edges at x = a and x = a + 1. -/
lemma scan_unit_top (a b : Int) :
    scan_intersections [(a, b), (a + 1, b), (a + 1, b + 1), (a, b + 1)] b =
      [(a : Rat), (a : Rat) + 1] := by
  unfold scan_intersections
  rw [show ([(a, b), (a + 1, b), (a + 1, b + 1), (a, b + 1)] : List (Int × Int)).zip
      (([(a, b), (a + 1, b), (a + 1, b + 1), (a, b + 1)] : List (Int × Int)).getLastD (0, 0) ::
        [(a, b), (a + 1, b), (a + 1, b + 1), (a, b + 1)]) =
      [((a, b), (a, b + 1)), ((a + 1, b), (a, b)), ((a + 1, b + 1), (a + 1, b)),
       ((a, b + 1), (a + 1, b + 1))] from rfl]
  rw [List.filterMap_cons_some (by dsimp only; rw [if_pos (by omega)])]
  rw [List.filterMap_cons_none (by dsimp only; rw [if_neg (by omega)])]
  rw [List.filterMap_cons_some (by dsimp only; rw [if_pos (by omega)])]
  rw [List.filterMap_cons_none (by dsimp only; rw [if_neg (by omega)])]
  rw [List.filterMap_nil]
  simp only [List.cons.injEq, and_true]
  constructor
  · push_cast
    ring
  · push_cast
    ring

/-- The half-open edge test excludes the square's bottom row entirely. -/
lemma scan_unit_bottom (a b : Int) :
    scan_intersections [(a, b), (a + 1, b), (a + 1, b + 1), (a, b + 1)] (b + 1) = [] := by
  unfold scan_intersections
  rw [show ([(a, b), (a + 1, b), (a + 1, b + 1), (a, b + 1)] : List (Int × Int)).zip
      (([(a, b), (a + 1, b), (a + 1, b + 1), (a, b + 1)] : List (Int × Int)).getLastD (0, 0) ::
        [(a, b), (a + 1, b), (a + 1, b + 1), (a, b + 1)]) =
      [((a, b), (a, b + 1)), ((a + 1, b), (a, b)), ((a + 1, b + 1), (a + 1, b)),
       ((a, b + 1), (a + 1, b + 1))] from rfl]
  rw [List.filterMap_cons_none (by dsimp only; rw [if_neg (by omega)])]
  rw [List.filterMap_cons_none (by dsimp only; rw [if_neg (by omega)])]
  rw [List.filterMap_cons_none (by dsimp only; rw [if_neg (by omega)])]
  rw [List.filterMap_cons_none (by dsimp only; rw [if_neg (by omega)])]
  rfl

/-- The single fill span of the top row. -/
lemma row_spans_unit_top (a b : Int) :
    row_spans [(a, b), (a + 1, b), (a + 1, b + 1), (a, b + 1)] b =
      [((a : Rat), (a : Rat) + 1)] := by
  unfold row_spans
  rw [scan_unit_top]
  have hle : ((a : Rat) ≤ (a : Rat) + 1) := by linarith
  simp [List.insertionSort, List.orderedInsert, hle, pairUp]

/-- The bottom row has no fill span. -/
lemma row_spans_unit_bottom (a b : Int) :
    row_spans [(a, b), (a + 1, b), (a + 1, b + 1), (a, b + 1)] (b + 1) = [] := by
  unfold row_spans
  rw [scan_unit_bottom]
  rfl

/-- C8 counterexample: filling the pixel-aligned unit square with
corners (0, 0) and (1, 1) sets pixel (row 0, column 1) even though that
pixel's center lies outside the square: the fill is not exactly the
pixels whose centers lie inside. -/
theorem unit_square_fill_c8_counterexample :
    rasterize_polygon zeroGrid (unit_square_poly 0 0) 1 0 1 = 1 ∧
    ¬ center_in_unit_square 0 0 0 1 := by
  constructor
  · unfold rasterize_polygon
    rw [if_neg (by simp [unit_square_poly])]
    simp only [unit_square_pixels, List.map_cons, List.map_nil]
    rw [row_spans_unit_top 0 0]
    simp only [List.any_cons, List.any_nil, Bool.or_false]
    rw [show ⌈((0 : Int) : Rat)⌉ = (0 : Int) from Int.ceil_intCast 0]
    rw [show ⌊((0 : Int) : Rat) + 1⌋ = (0 : Int) + 1 from by
      rw [show (((0 : Int) : Rat) + 1) = ((((0 : Int) + 1 : Int)) : Rat) from by push_cast; ring]
      exact Int.floor_intCast _]
    simp only [decide_eq_true_eq]
    rw [if_pos]
    refine ⟨by simp only [pyMin, List.foldl, max_self, min_self]; omega,
      by simp only [pyMax, List.foldl, HEIGHT]; omega,
      by simp only [pyMin, List.foldl]; omega,
      by simp only [pyMax, List.foldl, WIDTH]; omega⟩
  · norm_num [center_in_unit_square]

/-- The fill result of the pixel-aligned unit square, in pixel
indices: exactly the two top-row pixels (a, b) and (a+1, b). -/
lemma unit_square_fill_pixels (a b : Int) (ha0 : 0 ≤ a) (ha : a + 1 ≤ WIDTH - 1)
    (hb0 : 0 ≤ b) (hb : b + 1 ≤ HEIGHT - 1) :
    rasterize_polygon zeroGrid (unit_square_poly a b) 1 =
      fun r c => if r = b ∧ (c = a ∨ c = a + 1) then 1 else 0 := by
  simp only [WIDTH, HEIGHT] at ha hb
  funext r c
  unfold rasterize_polygon
  rw [if_neg (by simp [unit_square_poly])]
  simp only [unit_square_pixels, List.map_cons, List.map_nil]
  rw [show max 0 (pyMin [b, b, b + 1, b + 1]) = b from by simp [pyMin]; omega]
  rw [show min (HEIGHT - 1) (pyMax [b, b, b + 1, b + 1]) = b + 1 from by
    simp [pyMax, HEIGHT]; omega]
  rw [show max 0 (pyMin [a, a + 1, a + 1, a]) = a from by simp [pyMin]; omega]
  rw [show min (WIDTH - 1) (pyMax [a, a + 1, a + 1, a]) = a + 1 from by
    simp [pyMax, WIDTH]; omega]
  rcases eq_or_ne r b with rfl | hrb
  · rw [row_spans_unit_top]
    simp only [List.any_cons, List.any_nil, Bool.or_false]
    rw [show ⌈(a : Rat)⌉ = a from Int.ceil_intCast a]
    rw [show ⌊(a : Rat) + 1⌋ = a + 1 from by
      rw [show ((a : Rat) + 1) = (((a + 1 : Int)) : Rat) from by push_cast; ring]
      exact Int.floor_intCast _]
    rw [max_self, min_self]
    simp only [decide_eq_true_eq]
    split_ifs with h1 h2 h2 <;> simp_all [zeroGrid] <;> omega
  · rcases eq_or_ne r (b + 1) with rfl | hrb1
    · rw [row_spans_unit_bottom]
      simp only [List.any_nil]
      rw [if_neg (by simp)]
      rw [if_neg (by omega)]
      simp [zeroGrid]
    · rw [if_neg (by rintro ⟨h1, h2, _⟩; omega)]
      rw [if_neg (by rintro ⟨h1, _⟩; exact hrb h1)]
      simp [zeroGrid]

/-- A pixel center sits in the open unit square exactly for the pixel
whose lattice corner is the square's top-left corner. -/
lemma center_in_unit_square_iff (a b r c : Int) :
    center_in_unit_square a b r c ↔ (r = b ∧ c = a) := by
  unfold center_in_unit_square
  constructor
  · rintro ⟨h1, h2, h3, h4⟩
    have ha1 : (2 * a : Rat) < 2 * c + 1 := by linarith
    have ha2 : (2 * c + 1 : Rat) < 2 * a + 2 := by linarith
    have hb1 : (2 * b : Rat) < 2 * r + 1 := by linarith
    have hb2 : (2 * r + 1 : Rat) < 2 * b + 2 := by linarith
    have ia1 : (2 * a : Int) < 2 * c + 1 := by exact_mod_cast ha1
    have ia2 : (2 * c + 1 : Int) < 2 * a + 2 := by exact_mod_cast ha2
    have ib1 : (2 * b : Int) < 2 * r + 1 := by exact_mod_cast hb1
    have ib2 : (2 * r + 1 : Int) < 2 * b + 2 := by exact_mod_cast hb2
    omega
  · rintro ⟨rfl, rfl⟩
    refine ⟨by linarith, by linarith, by linarith, by linarith⟩

/-- C8 as amended: filling a pixel-aligned unit square with corners
(a, b) and (a+1, b+1) sets exactly two pixels: the pixel whose center
lies inside the square, and its right neighbour on the same row — the
span's right endpoint floor(a+1) is included by the fill loop.  No
other pixel is touched; in particular the bottom row b+1 is excluded by
the half-open edge test. -/
theorem unit_square_fill_c8 (a b : Int) (ha0 : 0 ≤ a) (ha : a + 1 ≤ WIDTH - 1)
    (hb0 : 0 ≤ b) (hb : b + 1 ≤ HEIGHT - 1) :
    rasterize_polygon zeroGrid (unit_square_poly a b) 1 =
      fun r c =>
        if center_in_unit_square a b r c ∨ (r = b ∧ c = a + 1) then 1 else 0 := by
  rw [unit_square_fill_pixels a b ha0 ha hb0 hb]
  funext r c
  have hiff : (r = b ∧ (c = a ∨ c = a + 1)) ↔
      (center_in_unit_square a b r c ∨ (r = b ∧ c = a + 1)) := by
    rw [center_in_unit_square_iff]
    tauto
  exact if_congr hiff rfl rfl

/-- Witness for C8 at the concrete square (5, 7). -/
theorem unit_square_fill_c8_witness :
    rasterize_polygon zeroGrid (unit_square_poly 5 7) 1 =
      fun r c =>
        if center_in_unit_square 5 7 r c ∨ (r = 7 ∧ c = 5 + 1) then 1 else 0 :=
  unit_square_fill_c8 5 7 (by decide) (by decide) (by decide) (by decide)

end RomaAeterna
